import Mathlib

/-!
Verification of the QuoteBot credential-lifecycle and resilient-transport core.

This file shallowly embeds the Go code of the repository:
  - the token cipher (`internal/interface/repository` token encryptor:
    base64 encoding, nonce handling, AES-GCM seal/open kept abstract),
  - the token manager (`token_manager.go`: encrypted-at-rest config values,
    decrypted cache, GetToken / RefreshToken / encryptTokensIfNeeded /
    Shutdown / backgroundTokenRefresh),
  - the retrying HTTP client (`http_client.go`: sendRequest classification,
    shouldRetry, calculateBackoff, DoRequest loop),
  - the posting client (`bluesky_repository.go`: PostMessage 401 recovery).

Go strings are byte sequences; where the cipher manipulates raw bytes we model
them as `List Nat` with every element `< 256`.  Machine integers
(`time.Duration` = int64) are modelled as `Int` with explicit two's-complement
wrapping.  Network and randomness effects are determinized: each operation
takes the outcome of its I/O as an explicit argument.
-/

set_option autoImplicit false

namespace QuoteBot

/-! ## Base64 (model of Go `encoding/base64` StdEncoding, as used by
`TokenEncryptor.Encrypt` / `Decrypt` / `IsEncrypted`).

`EncodeToString` emits 4 alphabet characters per 3 input bytes, padding the
final group with `=`.  `DecodeString` consumes groups of 4, rejecting inputs
whose length is not a multiple of 4 or that contain characters outside the
alphabet (padding only at the very end).  We do not model the skipping of
`\r`/`\n`, which never occur in the repository's inputs. -/

/-- character of the standard base64 alphabet at index `n` (valid for `n < 64`). -/
def b64Char (n : Nat) : Char :=
  if n < 26 then Char.ofNat (65 + n)
  else if n < 52 then Char.ofNat (97 + (n - 26))
  else if n < 62 then Char.ofNat (48 + (n - 52))
  else if n = 62 then '+' else '/'

/-- position of a character in the standard base64 alphabet, `none` if absent. -/
def b64Index (c : Char) : Option Nat :=
  if 65 ≤ c.toNat ∧ c.toNat ≤ 90 then some (c.toNat - 65)
  else if 97 ≤ c.toNat ∧ c.toNat ≤ 122 then some (c.toNat - 97 + 26)
  else if 48 ≤ c.toNat ∧ c.toNat ≤ 57 then some (c.toNat - 48 + 52)
  else if c = '+' then some 62
  else if c = '/' then some 63
  else none

theorem b64Index_b64Char : ∀ n, n < 64 → b64Index (b64Char n) = some n := by decide

theorem b64Char_ne_pad : ∀ n, n < 64 → b64Char n ≠ '=' := by decide

/-- encoding of a byte list as base64 characters (Go `EncodeToString`). -/
def base64EncodeBytes : List Nat → List Char
  | [] => []
  | [a] => [b64Char (a / 4), b64Char (a % 4 * 16), '=', '=']
  | [a, b] => [b64Char (a / 4), b64Char (a % 4 * 16 + b / 16), b64Char (b % 16 * 4), '=']
  | a :: b :: c :: rest =>
      b64Char (a / 4) :: b64Char (a % 4 * 16 + b / 16) ::
      b64Char (b % 16 * 4 + c / 64) :: b64Char (c % 64) :: base64EncodeBytes rest

/-- decoding of base64 characters back to bytes (Go `DecodeString`);
`none` models the decode error. -/
def base64DecodeChars : List Char → Option (List Nat)
  | [] => some []
  | c1 :: c2 :: c3 :: c4 :: rest =>
      match b64Index c1, b64Index c2 with
      | some i1, some i2 =>
        if c3 = '=' then
          if c4 = '=' ∧ rest = [] then some [i1 * 4 + i2 / 16] else none
        else
          match b64Index c3 with
          | some i3 =>
            if c4 = '=' then
              if rest = [] then some [i1 * 4 + i2 / 16, i2 % 16 * 16 + i3 / 4] else none
            else
              match b64Index c4 with
              | some i4 =>
                match base64DecodeChars rest with
                | some bs =>
                    some ((i1 * 4 + i2 / 16) :: (i2 % 16 * 16 + i3 / 4) :: (i3 % 4 * 64 + i4) :: bs)
                | none => none
              | none => none
          | none => none
      | _, _ => none
  | _ => none

theorem base64_roundtrip : ∀ bs : List Nat, (∀ b ∈ bs, b < 256) →
    base64DecodeChars (base64EncodeBytes bs) = some bs
  | [], _ => rfl
  | [a], h => by
      have ha : a < 256 := h a (by simp)
      have h1 : b64Index (b64Char (a / 4)) = some (a / 4) := b64Index_b64Char _ (by omega)
      have h2 : b64Index (b64Char (a % 4 * 16)) = some (a % 4 * 16) :=
        b64Index_b64Char _ (by omega)
      rw [base64EncodeBytes, base64DecodeChars, h1, h2]
      simp only [and_self, if_true, if_pos rfl, Option.some.injEq, List.cons.injEq, and_true]
      omega
  | [a, b], h => by
      have ha : a < 256 := h a (by simp)
      have hb : b < 256 := h b (by simp)
      have h1 : b64Index (b64Char (a / 4)) = some (a / 4) := b64Index_b64Char _ (by omega)
      have h2 : b64Index (b64Char (a % 4 * 16 + b / 16)) = some (a % 4 * 16 + b / 16) :=
        b64Index_b64Char _ (by omega)
      have h3 : b64Index (b64Char (b % 16 * 4)) = some (b % 16 * 4) :=
        b64Index_b64Char _ (by omega)
      have hne : b64Char (b % 16 * 4) ≠ '=' := b64Char_ne_pad _ (by omega)
      rw [base64EncodeBytes, base64DecodeChars, h1, h2]
      simp only [if_neg hne, h3, if_true, if_pos rfl, Option.some.injEq, List.cons.injEq,
        and_true]
      constructor <;> omega
  | a :: b :: c :: rest, h => by
      have ha : a < 256 := h a (by simp)
      have hb : b < 256 := h b (by simp)
      have hc : c < 256 := h c (by simp)
      have ih := base64_roundtrip rest (fun x hx => h x (by simp [hx]))
      have h1 : b64Index (b64Char (a / 4)) = some (a / 4) := b64Index_b64Char _ (by omega)
      have h2 : b64Index (b64Char (a % 4 * 16 + b / 16)) = some (a % 4 * 16 + b / 16) :=
        b64Index_b64Char _ (by omega)
      have h3 : b64Index (b64Char (b % 16 * 4 + c / 64)) = some (b % 16 * 4 + c / 64) :=
        b64Index_b64Char _ (by omega)
      have h4 : b64Index (b64Char (c % 64)) = some (c % 64) := b64Index_b64Char _ (by omega)
      have hne3 : b64Char (b % 16 * 4 + c / 64) ≠ '=' := b64Char_ne_pad _ (by omega)
      have hne4 : b64Char (c % 64) ≠ '=' := b64Char_ne_pad _ (by omega)
      rw [base64EncodeBytes, base64DecodeChars, h1, h2]
      simp only [if_neg hne3, h3, if_neg hne4, h4, ih, Option.some.injEq, List.cons.injEq]
      exact ⟨by omega, by omega, by omega, trivial⟩

/-! ## Credential cipher (`TokenEncryptor` of the repository).

`Encrypt` seals the plaintext under a fresh random nonce with AES-GCM and
returns `base64(nonce ++ sealed)`; `Decrypt` decodes, splits off the nonce and
opens.  The AES-GCM primitive lives in Go's standard library, so it is kept
abstract here as a `GCM` structure; its correctness (`sopen` undoes `gseal`) is
an explicit hypothesis where needed.  The random nonce is determinized into an
argument of `Encrypt`; in Go, `Encrypt` fails only when drawing the nonce or
building the cipher fails, which in this model corresponds to not calling
`Encrypt` at all.  Go strings are byte sequences, modelled as `List Nat` with
entries `< 256`. -/

structure GCM where
  nonceSize : Nat
  gseal : List Nat → List Nat → List Nat
  sopen : List Nat → List Nat → Option (List Nat)

/-- error cases of `Decrypt` (base64 decode failure, input shorter than one
nonce, GCM authentication failure). -/
inductive DecryptErr where
  | decodeFailed
  | tooShort
  | authFailed
deriving DecidableEq, Repr

/-- model of `TokenEncryptor.Encrypt`: seal under the given nonce, prepend the
nonce, base64-encode (`aesGCM.Seal(nonce, nonce, plaintext, nil)` followed by
`base64.StdEncoding.EncodeToString`). -/
def Encrypt (g : GCM) (nonce : List Nat) (plaintext : List Nat) : String :=
  String.mk (base64EncodeBytes (nonce ++ g.gseal nonce plaintext))

/-- model of `TokenEncryptor.Decrypt`: base64-decode, reject inputs shorter
than the nonce size, split nonce from ciphertext, open. -/
def Decrypt (g : GCM) (encryptedString : String) : Except DecryptErr (List Nat) :=
  match base64DecodeChars encryptedString.data with
  | none => .error .decodeFailed
  | some ciphertext =>
      if ciphertext.length < g.nonceSize then .error .tooShort
      else
        match g.sopen (ciphertext.take g.nonceSize) (ciphertext.drop g.nonceSize) with
        | none => .error .authFailed
        | some plaintext => .ok plaintext

/-- model of `TokenEncryptor.IsEncrypted`: true iff the text decodes as
base64, regardless of its content. -/
def IsEncrypted (text : String) : Bool :=
  (base64DecodeChars text.data).isSome

/-! ## Token manager (`token_manager.go`).

State of a `TokenManager` together with the two config fields it owns:
`cfg.AccessJWT` / `cfg.RefreshJWT` are the encrypted-at-rest values,
`cachedAccessToken` / `cachedRefreshToken` the decrypted cache (the Go code
uses the empty string as the cache-miss sentinel).  All I/O is determinized:
the cipher becomes an `Enc` record of pure functions (Go's `Encrypt` is
randomized and fallible, hence `Option`), and the HTTP refresh round trip
becomes an `Option (String × String)` argument (`none` covers both a failed
request and a failed JSON decode, which the Go code handles identically).
The mutex-protected operations are modelled sequentially: each operation is a
function from state to state, and the double-checked re-read in `GetToken`
coincides with the first read. -/

inductive TokenType where
  | access
  | refresh
deriving DecidableEq, Repr

structure TMState where
  accessJWT : String
  refreshJWT : String
  cachedAccessToken : String
  cachedRefreshToken : String
deriving DecidableEq, Repr

/-- interface of the token encryptor as used by `TokenManager`
(the I/O of the real `TokenEncryptor` determinized into pure functions). -/
structure Enc where
  encrypt : String → Option String
  decrypt : String → Option String
  isEncrypted : String → Bool

/-- functional correctness of the cipher: whatever `encrypt` produces,
`decrypt` maps back to the plaintext (AEAD roundtrip on the same key). -/
def EncLaw (e : Enc) : Prop :=
  ∀ s c, e.encrypt s = some c → e.decrypt c = some s

/-- model of `TokenManager.encryptTokensIfNeeded` (construction-time seeding):
if the access seed looks encrypted, do nothing; otherwise encrypt both seeds,
store the ciphertexts in the config and the plaintexts in the cache.
The returned `Bool` is true iff an error was returned (the caller only logs
it). -/
def encryptTokensIfNeeded (e : Enc) (st : TMState) : TMState × Bool :=
  if e.isEncrypted st.accessJWT then (st, false)
  else
    match e.encrypt st.accessJWT with
    | none => (st, true)
    | some encryptedAccessJWT =>
        match e.encrypt st.refreshJWT with
        | none => (st, true)
        | some encryptedRefreshJWT =>
            ({ accessJWT := encryptedAccessJWT
               refreshJWT := encryptedRefreshJWT
               cachedAccessToken := st.accessJWT
               cachedRefreshToken := st.refreshJWT }, false)

/-- model of `TokenManager.GetToken`: return the cached value when non-empty;
on a miss decrypt the encrypted-at-rest value, populate the cache and return
the plaintext; `none` as second component models the decrypt error return. -/
def GetToken (e : Enc) (tokenType : TokenType) (st : TMState) : TMState × Option String :=
  let cachedToken := match tokenType with
    | .access => st.cachedAccessToken
    | .refresh => st.cachedRefreshToken
  if cachedToken ≠ "" then (st, some cachedToken)
  else
    let encryptedToken := match tokenType with
      | .access => st.accessJWT
      | .refresh => st.refreshJWT
    match e.decrypt encryptedToken with
    | none => (st, none)
    | some decrypted =>
        match tokenType with
        | .access => ({ st with cachedAccessToken := decrypted }, some decrypted)
        | .refresh => ({ st with cachedRefreshToken := decrypted }, some decrypted)

/-- error exits of `RefreshToken`, one per `return fmt.Errorf(...)` site. -/
inductive RTErr where
  | getTokenFailed
  | httpOrDecodeFailed
  | encryptAccessFailed
  | encryptRefreshFailed
deriving DecidableEq, Repr

/-- model of `TokenManager.RefreshToken`: read the current refresh token via
`GetToken`, perform the HTTP round trip (`httpResult`: `none` = request or
JSON decode failed, `some (a2, r2)` = parsed response pair), then update the
cache with the new plaintexts, encrypt them, and finally update the
encrypted-at-rest config values.  Note the cache is written before the new
tokens are encrypted, so an encryption failure leaves the cache already
holding the new pair. -/
def RefreshToken (e : Enc) (httpResult : Option (String × String)) (st : TMState) :
    TMState × Option RTErr :=
  match GetToken e .refresh st with
  | (st1, none) => (st1, some .getTokenFailed)
  | (st1, some _) =>
      match httpResult with
      | none => (st1, some .httpOrDecodeFailed)
      | some (a2, r2) =>
          let st2 := { st1 with cachedAccessToken := a2, cachedRefreshToken := r2 }
          match e.encrypt a2 with
          | none => (st2, some .encryptAccessFailed)
          | some encryptedAccessJWT =>
              match e.encrypt r2 with
              | none => (st2, some .encryptRefreshFailed)
              | some encryptedRefreshJWT =>
                  ({ st2 with
                      accessJWT := encryptedAccessJWT
                      refreshJWT := encryptedRefreshJWT }, none)

/-- the credential-store invariant of the spec: a non-empty decrypted cache
entry is exactly the decryption of the corresponding encrypted-at-rest value
under the current cipher key. -/
def TMInv (e : Enc) (st : TMState) : Prop :=
  (st.cachedAccessToken ≠ "" → e.decrypt st.accessJWT = some st.cachedAccessToken) ∧
  (st.cachedRefreshToken ≠ "" → e.decrypt st.refreshJWT = some st.cachedRefreshToken)

instance (e : Enc) (st : TMState) : Decidable (TMInv e st) := by
  unfold TMInv; infer_instance

/-! ## Resilient transport (`http_client.go`). -/

/-- error of a single attempt: a transport error carrying no HTTP status, or
an `HTTPError` carrying the status code (the message and wrapped error fields
play no role in control flow and are omitted). -/
inductive HErr where
  | net
  | http (statusCode : Nat)
deriving DecidableEq, Repr

/-- outcome of `DoRequest`: `success` is `return resp, nil`; `failed` is the
raw `return nil, err` taken when `shouldRetry` says no; `exhausted` is the
annotated wrap `request failed after %d attempts` at the bottom of the
function, with the attempt count it reports. -/
inductive DoResult where
  | success (statusCode : Nat)
  | failed (e : HErr)
  | exhausted (last : Option HErr) (attempts : Nat)
deriving DecidableEq, Repr

/-- classification performed by `sendRequest` (`netResult`: `none` = transport
failure from `client.Do`, `some s` = response with status `s`): a status
outside [200,300) is turned into an `HTTPError` with that status. -/
def sendRequest (netResult : Option Nat) : Except HErr Nat :=
  match netResult with
  | none => .error .net
  | some statusCode =>
      if statusCode < 200 ∨ 300 ≤ statusCode then .error (.http statusCode)
      else .ok statusCode

/-- model of `HTTPClient.shouldRetry` (`MaxRetries` is taken as a `Nat`; the
repository always configures it non-negative). -/
def shouldRetry (maxRetries : Nat) (err : HErr) (attempt : Nat) : Bool :=
  if maxRetries ≤ attempt then false
  else
    match err with
    | .http statusCode =>
        if 400 ≤ statusCode ∧ statusCode < 500 ∧ statusCode ≠ 429 then false else true
    | .net => true

/-- the retry loop of `DoRequest`.  `results` gives the network outcome of
each attempt; `fuel` equals `maxRetries + 1 - attempt`, so running out of fuel
is exactly the loop condition `attempt <= MaxRetries` turning false, at which
point the annotated exhaustion error is returned with the last error seen. -/
def doRequestFrom (maxRetries : Nat) (results : Nat → Option Nat) :
    Nat → Nat → Option HErr → DoResult
  | 0, _, lastErr => .exhausted lastErr (maxRetries + 1)
  | fuel + 1, attempt, _ =>
      match sendRequest (results attempt) with
      | .ok statusCode => .success statusCode
      | .error e =>
          if shouldRetry maxRetries e attempt then
            doRequestFrom maxRetries results fuel (attempt + 1) (some e)
          else .failed e

/-- model of `HTTPClient.DoRequest`.  Body encoding always succeeds and the
context is never cancelled (those two early returns are orthogonal to the
claims about retry classification and exhaustion). -/
def DoRequest (maxRetries : Nat) (results : Nat → Option Nat) : DoResult :=
  doRequestFrom maxRetries results (maxRetries + 1) 0 none

/-- `MaxBackoffDuration = 30 * time.Second`, in nanoseconds (constants file of
the repository package). -/
def maxBackoffDuration : Int := 30000000000

/-- two's-complement wrap-around of int64 (`time.Duration`) arithmetic. -/
def wrap64 (x : Int) : Int := (x + 2 ^ 63) % 2 ^ 64 - 2 ^ 63

/-- Go `1 << uint(s)` at type int64: shifts of 64 or more give zero, a shift
of 63 wraps to the minimal int64. -/
def goShl1 (s : Nat) : Int := if 64 ≤ s then 0 else wrap64 (2 ^ s)

/-- model of `HTTPClient.calculateBackoff`:
`RetryBackoff * time.Duration(1 << uint(attempt-1))` clamped at
`MaxBackoffDuration`; durations are int64 nanosecond counts. -/
def calculateBackoff (retryBackoff : Int) (attempt : Nat) : Int :=
  let backoff := wrap64 (retryBackoff * goShl1 (attempt - 1))
  if maxBackoffDuration < backoff then maxBackoffDuration else backoff

/-! ## Posting client (`bluesky_repository.go`). -/

/-- outcomes of `PostMessage`, one per `return` site. -/
inductive PMOut where
  | ok
  | errGetToken
  | errPost
  | errRefresh
  | errGetToken2
  | errPostRetry
deriving DecidableEq, Repr

/-- the `err.(*HTTPError)` type assertion plus `StatusCode == 401` test of
`PostMessage`: only a raw `HTTPError` (never a wrapped error such as the
exhaustion annotation) with status 401 selects the recovery path. -/
def isUnauthorized : DoResult → Bool
  | .failed (.http 401) => true
  | _ => false

/-- model of `BlueskyRepository.PostMessage`, determinized over its I/O:
`accessToken1` is the first `GetToken` result, `post1` the first create-record
`DoRequest` outcome, `refreshOK` whether `RefreshToken` succeeds,
`accessToken2` the re-read of the access token, `post2` the retried
create-record outcome.  Returns the outcome together with the number of
`RefreshToken` calls and the number of create-record `DoRequest` calls
performed. -/
def PostMessage (accessToken1 : Option String) (post1 : DoResult) (refreshOK : Bool)
    (accessToken2 : Option String) (post2 : DoResult) : PMOut × Nat × Nat :=
  match accessToken1 with
  | none => (.errGetToken, 0, 0)
  | some _ =>
      match post1 with
      | .success _ => (.ok, 0, 1)
      | r1 =>
          if isUnauthorized r1 then
            if refreshOK then
              match accessToken2 with
              | none => (.errGetToken2, 1, 1)
              | some _ =>
                  match post2 with
                  | .success _ => (.ok, 1, 2)
                  | _ => (.errPostRetry, 1, 2)
            else (.errRefresh, 1, 1)
          else (.errPost, 0, 1)

/-! ## Shutdown and the background refresh loop (`token_manager.go`). -/

/-- model of `TokenManager.Shutdown`: `doneClosed` says whether the single-use
`Done` channel has already been closed.  `close` of an already-closed channel
panics in the Go runtime, modelled as `none`; otherwise the channel becomes
closed. -/
def Shutdown (doneClosed : Bool) : Option Bool :=
  if doneClosed then none else some true

/-- events the background select loop can observe: a ticker fire or the
closed `Done` channel becoming ready. -/
inductive BgEvent where
  | tick
  | doneReady
deriving DecidableEq, Repr

/-- model of `TokenManager.backgroundTokenRefresh`: the select loop consumes a
finite prefix of its event sequence; a ticker fire performs a refresh (whose
outcome is only logged) and loops; the done signal stops the ticker and
returns.  The result is true iff the loop has returned. -/
def backgroundTokenRefresh : List BgEvent → Bool
  | [] => false
  | .tick :: rest => backgroundTokenRefresh rest
  | .doneReady :: _ => true

/-! ## Concrete instances used in witnesses and counterexamples. -/

/-- decryption matching the tagged encryption `some ("E" ++ s)`: strip a
leading 'E'. -/
def decTagged (c : String) : Option String :=
  match c.data with
  | 'E' :: rest => some (String.mk rest)
  | _ => none

theorem decTagged_tag (s : String) : decTagged ("E" ++ s) = some s := by
  cases s with
  | mk data => rfl

/-- a law-abiding encryptor whose `encrypt` fails on the one plaintext "A2"
(modelling an `Encrypt` error from the randomness source or cipher). -/
def encX : Enc where
  encrypt := fun s => if s = "A2" then none else some ("E" ++ s)
  decrypt := decTagged
  isEncrypted := fun _ => false

theorem encX_law : EncLaw encX := by
  intro s c h
  unfold encX at h
  simp only at h
  split at h
  · cases h
  · injection h with h
    subst h
    exact decTagged_tag s

/-- the repository's `IsEncrypted` heuristic paired with a law-abiding,
always-succeeding encryptor, for exercising the seeding path. -/
def encB64 : Enc where
  encrypt := fun s => some ("E" ++ s)
  decrypt := decTagged
  isEncrypted := IsEncrypted

theorem encB64_law : EncLaw encB64 := by
  intro s c h
  injection h with h
  subst h
  exact decTagged_tag s

/-- a store state satisfying the invariant: encrypted pair ("EA1", "ER1"),
access cache populated with "A1", refresh cache empty. -/
def stX : TMState :=
  { accessJWT := "EA1", refreshJWT := "ER1"
    cachedAccessToken := "A1", cachedRefreshToken := "" }

/-! ## Claim C2: encrypt/decrypt roundtrip. -/

/-- C2: for every cipher instance and every plaintext (any byte sequence,
including the empty one and non-ASCII bytes), if `Encrypt` succeeds and
returns ciphertext `c`, then `Decrypt c` on the same instance succeeds and
returns the plaintext.  Hypotheses: the drawn nonce has the instance's GCM
nonce length, nonce and sealed output consist of bytes, and the AEAD
primitive opens what it sealed (correctness of Go's AES-GCM on one key). -/
theorem encrypt_decrypt_roundtrip (g : GCM) (nonce plaintext : List Nat)
    (hlen : nonce.length = g.nonceSize)
    (hbytes : ∀ b ∈ nonce ++ g.gseal nonce plaintext, b < 256)
    (hopen : g.sopen nonce (g.gseal nonce plaintext) = some plaintext) :
    Decrypt g (Encrypt g nonce plaintext) = .ok plaintext := by
  unfold Encrypt Decrypt
  rw [show (String.mk (base64EncodeBytes (nonce ++ g.gseal nonce plaintext))).data
      = base64EncodeBytes (nonce ++ g.gseal nonce plaintext) from rfl]
  rw [base64_roundtrip _ hbytes]
  have hlen2 : ¬ (nonce ++ g.gseal nonce plaintext).length < g.nonceSize := by
    rw [List.length_append]; omega
  dsimp only
  rw [if_neg hlen2, ← hlen, List.take_left, List.drop_left, hopen]

/-- a trivial but correct AEAD instance for exercising the cipher model. -/
def gcmW : GCM where
  nonceSize := 2
  gseal := fun _ p => p
  sopen := fun _ c => some c

theorem encrypt_decrypt_roundtrip_witness :
    Decrypt gcmW (Encrypt gcmW [0, 255] [200, 0, 65]) = .ok [200, 0, 65] :=
  encrypt_decrypt_roundtrip gcmW [0, 255] [200, 0, 65] rfl (by decide) rfl

/-! ## Claim C4: per-attempt retry classification. -/

/-- C4 (amended): per attempt with retry budget remaining, a transport error
with no status is retryable; statuses 500..599 are retryable; 429 is
retryable; any other 4xx is not retryable and `DoRequest` fails immediately
with that raw error; a 2xx response is a success that stops the loop; a 3xx
response, however, is classified by `sendRequest` as a status error (the code
treats only [200,300) as success) and, not being a 4xx, is retryable. -/
theorem retry_classification :
    (∀ maxRetries attempt, attempt < maxRetries →
      shouldRetry maxRetries .net attempt = true) ∧
    (∀ maxRetries attempt s, attempt < maxRetries → 500 ≤ s → s ≤ 599 →
      shouldRetry maxRetries (.http s) attempt = true) ∧
    (∀ maxRetries attempt, attempt < maxRetries →
      shouldRetry maxRetries (.http 429) attempt = true) ∧
    (∀ maxRetries attempt s, 400 ≤ s → s < 500 → s ≠ 429 →
      shouldRetry maxRetries (.http s) attempt = false) ∧
    (∀ maxRetries results s, 400 ≤ s → s < 500 → s ≠ 429 → results 0 = some s →
      DoRequest maxRetries results = .failed (.http s)) ∧
    (∀ s, 200 ≤ s → s < 300 → sendRequest (some s) = .ok s) ∧
    (∀ maxRetries results s, 200 ≤ s → s < 300 → results 0 = some s →
      DoRequest maxRetries results = .success s) ∧
    (∀ maxRetries attempt s, attempt < maxRetries → 300 ≤ s → s < 400 →
      sendRequest (some s) = .error (.http s) ∧
        shouldRetry maxRetries (.http s) attempt = true) := by
  have hsr4 : ∀ maxRetries attempt s, 400 ≤ s → s < 500 → s ≠ 429 →
      shouldRetry maxRetries (.http s) attempt = false := by
    intro mr att s h1 h2 h3
    unfold shouldRetry
    split
    · rfl
    · dsimp only
      rw [if_pos ⟨h1, h2, h3⟩]
  refine ⟨?_, ?_, ?_, hsr4, ?_, ?_, ?_, ?_⟩
  · intro mr att h
    unfold shouldRetry
    rw [if_neg (by omega)]
  · intro mr att s h h1 h2
    unfold shouldRetry
    rw [if_neg (by omega)]
    dsimp only
    exact if_neg (by omega)
  · intro mr att h
    unfold shouldRetry
    rw [if_neg (by omega)]
    dsimp only
    exact if_neg (by omega)
  · intro mr results s h1 h2 h3 h0
    unfold DoRequest doRequestFrom
    rw [h0]
    unfold sendRequest
    dsimp only
    rw [if_pos (show s < 200 ∨ 300 ≤ s by omega)]
    dsimp only
    rw [hsr4 mr 0 s h1 h2 h3]
    rfl
  · intro s h1 h2
    unfold sendRequest
    dsimp only
    rw [if_neg (show ¬ (s < 200 ∨ 300 ≤ s) by omega)]
  · intro mr results s h1 h2 h0
    unfold DoRequest doRequestFrom
    rw [h0]
    unfold sendRequest
    dsimp only
    rw [if_neg (show ¬ (s < 200 ∨ 300 ≤ s) by omega)]
  · intro mr att s h h1 h2
    constructor
    · unfold sendRequest
      dsimp only
      rw [if_pos (show s < 200 ∨ 300 ≤ s by omega)]
    · unfold shouldRetry
      rw [if_neg (by omega)]
      dsimp only
      exact if_neg (by omega)

theorem retry_classification_witness :
    shouldRetry 3 .net 0 = true ∧ shouldRetry 3 (.http 500) 0 = true ∧
    shouldRetry 3 (.http 429) 1 = true ∧ shouldRetry 3 (.http 400) 2 = false ∧
    DoRequest 3 (fun _ => some 401) = .failed (.http 401) ∧
    sendRequest (some 200) = .ok 200 ∧
    DoRequest 3 (fun _ => some 204) = .success 204 :=
  ⟨retry_classification.1 3 0 (by omega),
   retry_classification.2.1 3 0 500 (by omega) (by omega) (by omega),
   retry_classification.2.2.1 3 1 (by omega),
   retry_classification.2.2.2.1 3 2 400 (by omega) (by omega) (by omega),
   retry_classification.2.2.2.2.1 3 (fun _ => some 401) 401 (by omega) (by omega) (by omega) rfl,
   retry_classification.2.2.2.2.2.1 200 (by omega) (by omega),
   retry_classification.2.2.2.2.2.2.1 3 (fun _ => some 204) 204 (by omega) (by omega) rfl⟩

/-- C4 counterexample: a 3xx response is not a success of `DoRequest`;
`sendRequest` classifies status 301 as an `HTTPError` and the call fails. -/
theorem retry_classification_cex :
    sendRequest (some 301) = .error (.http 301) ∧
    DoRequest 0 (fun _ => some 301) = .failed (.http 301) :=
  ⟨rfl, rfl⟩

/-! ## Claim C5: exponential backoff schedule. -/

theorem wrap64_id (x : Int) (h1 : -9223372036854775808 ≤ x)
    (h2 : x < 9223372036854775808) : wrap64 x = x := by
  unfold wrap64
  omega

/-- C5: for a retry attempt i >= 1 whose exact backoff base * 2^(i-1) fits in
int64, `calculateBackoff` returns it clamped at `MaxBackoffDuration`; in
particular with base 100ms the first three retries wait 100ms, 200ms, 400ms,
and a computed backoff above the 30s ceiling is clamped to exactly 30s. -/
theorem calculateBackoff_spec :
    (∀ (retryBackoff : Int) (attempt : Nat), 1 ≤ attempt → 0 ≤ retryBackoff →
      retryBackoff * 2 ^ (attempt - 1) < 2 ^ 63 →
      calculateBackoff retryBackoff attempt
        = min (retryBackoff * 2 ^ (attempt - 1)) maxBackoffDuration) ∧
    calculateBackoff 100000000 1 = 100000000 ∧
    calculateBackoff 100000000 2 = 200000000 ∧
    calculateBackoff 100000000 3 = 400000000 ∧
    calculateBackoff 20000000000 2 = maxBackoffDuration := by
  refine ⟨?_, by decide, by decide, by decide, by decide⟩
  intro rb attempt h1 h2 h3
  unfold calculateBackoff
  rcases eq_or_lt_of_le h2 with hz | hpos
  · rw [← hz]
    rw [show (0:Int) * goShl1 (attempt - 1) = 0 by ring, show wrap64 0 = 0 by decide]
    rw [show (0:Int) * 2 ^ (attempt - 1) = 0 by ring]
    rfl
  · have hs : attempt - 1 ≤ 62 := by
      by_contra hgt
      have h63 : 63 ≤ attempt - 1 := by omega
      have hmono : (2:Int) ^ 63 ≤ 2 ^ (attempt - 1) :=
        pow_le_pow_right₀ (by norm_num) h63
      have hbig : (2:Int) ^ 63 ≤ rb * 2 ^ (attempt - 1) := by
        calc (2:Int) ^ 63 ≤ 2 ^ (attempt - 1) := hmono
          _ ≤ rb * 2 ^ (attempt - 1) :=
            le_mul_of_one_le_left (by positivity) (by omega)
      linarith
    have hp0 : (0:Int) ≤ 2 ^ (attempt - 1) := by positivity
    have hple : (2:Int) ^ (attempt - 1) ≤ 2 ^ 62 := pow_le_pow_right₀ (by norm_num) hs
    have h62 : (2:Int) ^ 62 = 4611686018427387904 := by norm_num
    rw [h62] at hple
    have hshl : goShl1 (attempt - 1) = 2 ^ (attempt - 1) := by
      unfold goShl1
      rw [if_neg (by omega)]
      exact wrap64_id _ (by linarith) (by linarith)
    rw [hshl]
    have h63l : (2:Int) ^ 63 = 9223372036854775808 := by norm_num
    have h3l := h3
    rw [h63l] at h3l
    have hq0 : 0 ≤ rb * 2 ^ (attempt - 1) := mul_nonneg hpos.le hp0
    rw [wrap64_id _ (by linarith) h3l]
    rcases le_or_lt (rb * 2 ^ (attempt - 1)) maxBackoffDuration with hle | hlt
    · rw [if_neg (not_lt.mpr hle), min_eq_left hle]
    · rw [if_pos hlt, min_eq_right hlt.le]

theorem calculateBackoff_spec_witness :
    calculateBackoff 100000000 3 = min (100000000 * 2 ^ (3 - 1)) maxBackoffDuration :=
  calculateBackoff_spec.1 100000000 3 (by norm_num) (by norm_num) (by norm_num)

/-! ## Claim C6: behavior on retry-budget exhaustion. -/

theorem doRequestFrom_exhaustion (maxRetries : Nat) (results : Nat → Option Nat) (e : HErr)
    (hlast : sendRequest (results maxRetries) = .error e) :
    ∀ fuel attempt lastErr, attempt + fuel = maxRetries + 1 → attempt ≤ maxRetries →
      (∀ i, attempt ≤ i → i < maxRetries → ∃ ei, sendRequest (results i) = .error ei ∧
        shouldRetry maxRetries ei i = true) →
      doRequestFrom maxRetries results fuel attempt lastErr = .failed e
  | 0, attempt, lastErr, hsum, hle, _ => absurd hsum (by omega)
  | fuel + 1, attempt, lastErr, hsum, hle, hrec => by
      unfold doRequestFrom
      rcases Nat.lt_or_ge attempt maxRetries with hlt | hge
      · obtain ⟨ei, hsi, hri⟩ := hrec attempt le_rfl hlt
        rw [hsi]
        dsimp only
        rw [hri]
        exact doRequestFrom_exhaustion maxRetries results e hlast fuel (attempt + 1) (some ei)
          (by omega) (by omega) (fun i hi1 hi2 => hrec i (by omega) hi2)
      · have heq : attempt = maxRetries := by omega
        subst heq
        rw [hlast]
        dsimp only
        rw [show shouldRetry attempt e attempt = false by
          unfold shouldRetry; exact if_pos le_rfl]
        rfl

/-- C6 (amended): when the retry budget is exhausted — the initial attempt
and all `MaxRetries` additional attempts failed — `DoRequest` returns the
final attempt's underlying error itself, raw and unannotated: the
`request failed after %d attempts` wrap is unreachable, because `shouldRetry`
already returns false (causing the raw `return nil, err`) once `attempt`
reaches `MaxRetries`. -/
theorem doRequest_exhaustion (maxRetries : Nat) (results : Nat → Option Nat) (e : HErr)
    (hfail : ∀ i, i < maxRetries → ∃ ei, sendRequest (results i) = .error ei ∧
      shouldRetry maxRetries ei i = true)
    (hlast : sendRequest (results maxRetries) = .error e) :
    DoRequest maxRetries results = .failed e :=
  doRequestFrom_exhaustion maxRetries results e hlast (maxRetries + 1) 0 none
    (by omega) (by omega) (fun i _ hi => hfail i hi)

theorem doRequest_exhaustion_witness :
    DoRequest 2 (fun _ => none) = .failed .net :=
  doRequest_exhaustion 2 (fun _ => none) .net
    (fun i hi => ⟨.net, rfl, by unfold shouldRetry; rw [if_neg (by omega)]⟩) rfl

/-- C6 counterexample: with MaxRetries = 1 and every attempt answering 500,
both attempts fail and `DoRequest` returns the raw `HTTPError`, not an error
annotated with the attempt count. -/
theorem doRequest_exhaustion_cex :
    DoRequest 1 (fun _ => some 500) = .failed (.http 500) ∧
    DoRequest 1 (fun _ => some 500) ≠ .exhausted (some (.http 500)) 2 := by decide

/-! ## Claim C3: PostMessage 401 recovery. -/

/-- C3: when the create-record call fails with a raw 401 `HTTPError`,
`PostMessage` performs exactly one `RefreshToken`, re-reads the access token
and retries the call exactly once: on success nothing is surfaced and exactly
one refresh and two post attempts happened; a failure of the retry is
surfaced with no further refresh or retry; a non-401 failure is surfaced
immediately with no refresh; a refresh failure is surfaced with no retry. -/
theorem postMessage_401_recovery :
    (∀ t1 t2 s, PostMessage (some t1) (.failed (.http 401)) true (some t2) (.success s)
        = (.ok, 1, 2)) ∧
    (∀ t1 refreshOK t2 d2 dres, isUnauthorized dres = false → (∀ s, dres ≠ .success s) →
        PostMessage (some t1) dres refreshOK t2 d2 = (.errPost, 0, 1)) ∧
    (∀ t1 t2 d2, (∀ s, d2 ≠ .success s) →
        PostMessage (some t1) (.failed (.http 401)) true (some t2) d2
          = (.errPostRetry, 1, 2)) ∧
    (∀ t1 t2 d2, PostMessage (some t1) (.failed (.http 401)) false t2 d2
        = (.errRefresh, 1, 1)) := by
  refine ⟨fun t1 t2 s => rfl, ?_, ?_, fun t1 t2 d2 => rfl⟩
  · intro t1 refreshOK t2 d2 dres hna hns
    cases dres with
    | success s => exact absurd rfl (hns s)
    | failed e =>
        unfold PostMessage
        dsimp only
        rw [hna]
        rfl
    | exhausted le n =>
        unfold PostMessage
        dsimp only
        rw [hna]
        rfl
  · intro t1 t2 d2 hns
    cases d2 with
    | success s => exact absurd rfl (hns s)
    | failed e => rfl
    | exhausted le n => rfl

theorem postMessage_401_recovery_witness :
    PostMessage (some "tok1") (.failed (.http 401)) true (some "tok2") (.success 200)
      = (.ok, 1, 2) ∧
    PostMessage (some "tok1") (.failed (.http 500)) true (some "tok2") (.success 200)
      = (.errPost, 0, 1) ∧
    PostMessage (some "tok1") (.failed (.http 401)) true (some "tok2") (.failed (.http 400))
      = (.errPostRetry, 1, 2) ∧
    PostMessage (some "tok1") (.failed (.http 401)) false (some "tok2") (.success 200)
      = (.errRefresh, 1, 1) :=
  ⟨postMessage_401_recovery.1 "tok1" "tok2" 200,
   postMessage_401_recovery.2.1 "tok1" true (some "tok2") (.success 200) (.failed (.http 500))
     rfl (fun s h => by cases h),
   postMessage_401_recovery.2.2.1 "tok1" "tok2" (.failed (.http 400)) (fun s h => by cases h),
   postMessage_401_recovery.2.2.2 "tok1" (some "tok2") (.success 200)⟩

/-! ## Claim C10: Shutdown is single-use. -/

/-- C10: `Shutdown` unconditionally closes the single-use `Done` channel: a
first call closes it and a second call panics (close of a closed channel);
under at most one call, the background refresh loop stops and returns once
the closed channel becomes ready, whatever ticks preceded it. -/
theorem shutdown_single_use :
    Shutdown false = some true ∧ Shutdown true = none ∧
    (∀ ticks : List BgEvent, backgroundTokenRefresh (ticks ++ [.doneReady]) = true) := by
  refine ⟨rfl, rfl, ?_⟩
  intro ticks
  induction ticks with
  | nil => rfl
  | cons e rest ih => cases e <;> simp [backgroundTokenRefresh, ih]

theorem shutdown_single_use_witness :
    backgroundTokenRefresh ([.tick, .tick] ++ [.doneReady]) = true :=
  shutdown_single_use.2.2 [.tick, .tick]

/-! ## Claim C1: the credential-store invariant. -/

theorem getToken_pres (e : Enc) (tokenType : TokenType) (st : TMState) (hinv : TMInv e st) :
    TMInv e (GetToken e tokenType st).1 := by
  obtain ⟨h1, h2⟩ := hinv
  cases tokenType with
  | access =>
      unfold GetToken
      dsimp only
      split
      · exact ⟨h1, h2⟩
      · split
        · exact ⟨h1, h2⟩
        · next d heq => exact ⟨fun _ => heq, h2⟩
  | refresh =>
      unfold GetToken
      dsimp only
      split
      · exact ⟨h1, h2⟩
      · split
        · exact ⟨h1, h2⟩
        · next d heq => exact ⟨h1, fun _ => heq⟩

theorem encryptTokensIfNeeded_pres (e : Enc) (law : EncLaw e) (st : TMState)
    (hinv : TMInv e st) : TMInv e (encryptTokensIfNeeded e st).1 := by
  obtain ⟨h1, h2⟩ := hinv
  unfold encryptTokensIfNeeded
  split
  · exact ⟨h1, h2⟩
  · split
    · exact ⟨h1, h2⟩
    · next ea hea =>
        split
        · exact ⟨h1, h2⟩
        · next er her => exact ⟨fun _ => law _ _ hea, fun _ => law _ _ her⟩

theorem refreshToken_pres (e : Enc) (law : EncLaw e) (st : TMState) (hinv : TMInv e st)
    (httpResult : Option (String × String)) :
    TMInv e (RefreshToken e httpResult st).1 ∨
    (RefreshToken e httpResult st).2 = some .encryptAccessFailed ∨
    (RefreshToken e httpResult st).2 = some .encryptRefreshFailed := by
  have hg := getToken_pres e .refresh st hinv
  unfold RefreshToken
  rcases hgt : GetToken e .refresh st with ⟨st1, tok⟩
  rw [hgt] at hg
  cases tok with
  | none => exact .inl hg
  | some t =>
      cases httpResult with
      | none => exact .inl hg
      | some pair =>
          rcases pair with ⟨a2, r2⟩
          dsimp only
          rcases hea : e.encrypt a2 with _ | ea
          · exact .inr (.inl rfl)
          · rcases her : e.encrypt r2 with _ | er
            · exact .inr (.inr rfl)
            · exact .inl ⟨fun _ => law _ _ hea, fun _ => law _ _ her⟩

/-- C1 (amended): when a decrypted cache entry is non-empty it equals the
decryption of the corresponding encrypted-at-rest value; this invariant is
preserved by construction-time seeding, by GetToken (including the cache-miss
fill), and by every path of RefreshToken except its two encrypt-failure error
paths — there the cache already holds the new pair while the store still
holds the old encrypted pair, and the invariant can be violated. -/
theorem tmInv_preservation (e : Enc) (law : EncLaw e) (st : TMState) (hinv : TMInv e st) :
    TMInv e (encryptTokensIfNeeded e st).1 ∧
    (∀ tokenType, TMInv e (GetToken e tokenType st).1) ∧
    (∀ httpResult, (RefreshToken e httpResult st).2 ≠ some .encryptAccessFailed →
      (RefreshToken e httpResult st).2 ≠ some .encryptRefreshFailed →
      TMInv e (RefreshToken e httpResult st).1) := by
  refine ⟨encryptTokensIfNeeded_pres e law st hinv, fun tt => getToken_pres e tt st hinv, ?_⟩
  intro httpResult hA hR
  rcases refreshToken_pres e law st hinv httpResult with h | h | h
  · exact h
  · exact absurd h hA
  · exact absurd h hR

theorem tmInv_preservation_witness :
    TMInv encX (encryptTokensIfNeeded encX stX).1 ∧
    TMInv encX (GetToken encX .refresh stX).1 ∧
    TMInv encX (RefreshToken encX none stX).1 :=
  ⟨(tmInv_preservation encX encX_law stX (by decide)).1,
   (tmInv_preservation encX encX_law stX (by decide)).2.1 .refresh,
   (tmInv_preservation encX encX_law stX (by decide)).2.2 none (by decide) (by decide)⟩

/-- C1 counterexample: with a law-abiding cipher that happens to fail to
encrypt the new access token "A2", RefreshToken takes the encrypt-failure
error path: starting from an invariant-satisfying state, the resulting state
has the new pair in the cache but the old pair in the store, violating the
invariant. -/
theorem tmInv_preservation_cex :
    EncLaw encX ∧ TMInv encX stX ∧
    (RefreshToken encX (some ("A2", "R2")) stX).2 = some .encryptAccessFailed ∧
    ¬ TMInv encX (RefreshToken encX (some ("A2", "R2")) stX).1 :=
  ⟨encX_law, by decide, by decide, by decide⟩

/-! ## Claim C7: failed refresh mutates no credential state. -/

/-- C7 (amended): if the HTTP refresh request (or the decode of its response)
fails, RefreshToken returns an error; both encrypted-at-rest values and the
access cache are exactly as before, and the refresh cache is either unchanged
or has merely been filled by the initial GetToken with the decryption of the
unchanged encrypted refresh value — so the credential pair in use is
unchanged, but the refresh cache entry itself can go from empty to
populated. -/
theorem refreshToken_failure_no_mutation (e : Enc) (st st1 : TMState) (rt : String)
    (hget : GetToken e .refresh st = (st1, some rt)) :
    RefreshToken e none st = (st1, some .httpOrDecodeFailed) ∧
    st1.accessJWT = st.accessJWT ∧ st1.refreshJWT = st.refreshJWT ∧
    st1.cachedAccessToken = st.cachedAccessToken ∧
    (st1.cachedRefreshToken = st.cachedRefreshToken ∨
      (st.cachedRefreshToken = "" ∧ e.decrypt st.refreshJWT = some st1.cachedRefreshToken)) := by
  refine ⟨?_, ?_⟩
  · unfold RefreshToken
    rw [hget]
  · unfold GetToken at hget
    dsimp only at hget
    split at hget
    · cases hget
      exact ⟨rfl, rfl, rfl, .inl rfl⟩
    · next hne =>
        split at hget
        · simp at hget
        · next d heq =>
            cases hget
            exact ⟨rfl, rfl, rfl, .inr ⟨not_not.mp hne, heq⟩⟩

/-- an invariant-satisfying state with both caches populated. -/
def stY : TMState :=
  { accessJWT := "EA1", refreshJWT := "ER1"
    cachedAccessToken := "A1", cachedRefreshToken := "R1" }

theorem refreshToken_failure_no_mutation_witness :
    RefreshToken encX none stY = (stY, some .httpOrDecodeFailed) :=
  (refreshToken_failure_no_mutation encX stY stY "R1" (by decide)).1

/-- C7 counterexample: on a state whose refresh cache is empty, a failed
refresh still fills the refresh cache (via the initial GetToken), so the
decrypted cache is not exactly as it was before the call. -/
theorem refreshToken_failure_cex :
    (RefreshToken encX none stX).2 = some .httpOrDecodeFailed ∧
    stX.cachedRefreshToken = "" ∧
    (RefreshToken encX none stX).1.cachedRefreshToken = "R1" ∧
    (RefreshToken encX none stX).1 ≠ stX := by decide

/-! ## Claim C8: reads after a successful refresh. -/

/-- C8: if RefreshToken succeeds against a response pair (a2, r2), then
GetToken returns a2 for access and r2 for refresh and leaves the state
unchanged — so every subsequent read until the next refresh observes exactly
the new pair, never a mix with the prior pair. -/
theorem refreshToken_success_reads (e : Enc) (law : EncLaw e) (st st3 : TMState)
    (a2 r2 : String) (h : RefreshToken e (some (a2, r2)) st = (st3, none)) :
    GetToken e .access st3 = (st3, some a2) ∧ GetToken e .refresh st3 = (st3, some r2) := by
  unfold RefreshToken at h
  rcases hgt : GetToken e .refresh st with ⟨st1, tok⟩
  rw [hgt] at h
  cases tok with
  | none => simp at h
  | some t =>
      dsimp only at h
      rcases hea : e.encrypt a2 with _ | ea
      · rw [hea] at h; simp at h
      · rw [hea] at h
        rcases her : e.encrypt r2 with _ | er
        · rw [her] at h; simp at h
        · rw [her] at h
          dsimp only at h
          have hst3 : st3 = TMState.mk ea er a2 r2 := (congrArg Prod.fst h).symm
          subst hst3
          constructor
          · unfold GetToken
            dsimp only
            by_cases ha : a2 = ""
            · subst ha
              rw [if_neg (by simp)]
              rw [law _ _ hea]
            · rw [if_pos ha]
          · unfold GetToken
            dsimp only
            by_cases hr : r2 = ""
            · subst hr
              rw [if_neg (by simp)]
              rw [law _ _ her]
            · rw [if_pos hr]

/-- the state produced by a successful refresh of `stX` against the pair
("A2", "R2") under `encB64`. -/
def stA2 : TMState :=
  { accessJWT := "EA2", refreshJWT := "ER2"
    cachedAccessToken := "A2", cachedRefreshToken := "R2" }

theorem refreshToken_success_reads_witness :
    GetToken encB64 .access stA2 = (stA2, some "A2") ∧
    GetToken encB64 .refresh stA2 = (stA2, some "R2") :=
  refreshToken_success_reads encB64 encB64_law stX stA2 "A2" "R2" (by decide)

/-! ## Claim C9: construction-time seeding and the IsEncrypted heuristic. -/

/-- C9 (amended): the seeding step decides on the access seed alone: when
`IsEncrypted` classifies the access seed as already encrypted, both values
are left unchanged and the cache untouched — even if the refresh seed is not
already encrypted; otherwise both seeds are encrypted and the plaintexts
cached (or, if either encryption fails, nothing changes and the error is
logged). -/
theorem encryptTokensIfNeeded_access_only (e : Enc) (st : TMState) :
    (e.isEncrypted st.accessJWT = true → encryptTokensIfNeeded e st = (st, false)) ∧
    (∀ ea er, e.isEncrypted st.accessJWT = false → e.encrypt st.accessJWT = some ea →
      e.encrypt st.refreshJWT = some er →
      encryptTokensIfNeeded e st =
        ({ accessJWT := ea, refreshJWT := er, cachedAccessToken := st.accessJWT,
           cachedRefreshToken := st.refreshJWT }, false)) ∧
    (e.isEncrypted st.accessJWT = false → e.encrypt st.accessJWT = none →
      encryptTokensIfNeeded e st = (st, true)) ∧
    (∀ ea, e.isEncrypted st.accessJWT = false → e.encrypt st.accessJWT = some ea →
      e.encrypt st.refreshJWT = none → encryptTokensIfNeeded e st = (st, true)) := by
  refine ⟨?_, ?_, ?_, ?_⟩
  · intro h
    unfold encryptTokensIfNeeded
    rw [if_pos h]
  · intro ea er h hea her
    unfold encryptTokensIfNeeded
    rw [h]
    simp only [Bool.false_eq_true, if_false]
    rw [hea]
    dsimp only
    rw [her]
  · intro h hea
    unfold encryptTokensIfNeeded
    rw [h]
    simp only [Bool.false_eq_true, if_false]
    rw [hea]
  · intro ea h hea her
    unfold encryptTokensIfNeeded
    rw [h]
    simp only [Bool.false_eq_true, if_false]
    rw [hea]
    dsimp only
    rw [her]

/-- plaintext seeds that do not decode as base64. -/
def stP : TMState :=
  { accessJWT := "a1", refreshJWT := "r1"
    cachedAccessToken := "", cachedRefreshToken := "" }

theorem encryptTokensIfNeeded_access_only_witness :
    encryptTokensIfNeeded encB64 stP =
      ({ accessJWT := "Ea1", refreshJWT := "Er1", cachedAccessToken := "a1",
         cachedRefreshToken := "r1" }, false) :=
  (encryptTokensIfNeeded_access_only encB64 stP).2.1 "Ea1" "Er1"
    (by decide) (by decide) (by decide)

/-- a seed pair where the access seed coincidentally decodes as base64
("seed": four alphabet characters) while the refresh seed does not
("refresh!": the '!' is outside the alphabet). -/
def stSeed : TMState :=
  { accessJWT := "seed", refreshJWT := "refresh!"
    cachedAccessToken := "", cachedRefreshToken := "" }

/-- C9 counterexample: the already-encrypted check inspects only the access
seed, so with access seed "seed" (classified encrypted by the base64
heuristic) and refresh seed "refresh!" (not classified encrypted, and
encryptable), seeding changes nothing: the refresh seed is left stored in
plaintext even though it is not already encrypted. -/
theorem encryptTokensIfNeeded_cex :
    EncLaw encB64 ∧
    encB64.isEncrypted stSeed.accessJWT = true ∧
    encB64.isEncrypted stSeed.refreshJWT = false ∧
    encB64.encrypt stSeed.refreshJWT = some "Erefresh!" ∧
    encryptTokensIfNeeded encB64 stSeed = (stSeed, false) :=
  ⟨encB64_law, by decide, by decide, by decide, by decide⟩

end QuoteBot
